import Mathlib

/-!
Shallow embedding of the core analytical engine of the trend-scanner
repository (src/analysis.py and src/structure.py), together with proofs
of the specification claims about it.

Prices are modelled as rationals, dates as integers (ordinal dates),
"not available" indicator values (pandas NaN) as `Option`.
-/

set_option maxHeartbeats 1000000

namespace TrendScanner

/-- One trading session bar (the raw input record). -/
structure Bar where
  date : Int
  open_ : ℚ
  high : ℚ
  low : ℚ
  close : ℚ
  volume : ℚ
deriving DecidableEq, Repr

/-- A bar augmented with the indicator columns computed by
`add_indicators` (src/analysis.py lines 18-25); `sma50`, `sma200` and
`atr14` are `none` while their rolling window is not yet full. -/
structure Frame where
  date : Int
  open_ : ℚ
  high : ℚ
  low : ℚ
  close : ℚ
  volume : ℚ
  ema9 : ℚ
  ema20 : ℚ
  sma50 : Option ℚ
  sma200 : Option ℚ
  atr14 : Option ℚ
deriving DecidableEq, Repr

/-- A structure pivot (src/structure.py lines 7-12). -/
structure Pivot where
  i : Nat
  date : Int
  price : ℚ
  kind : String
deriving DecidableEq, Repr

/-- The result record of `predict_tomorrow` (src/analysis.py lines 10-15).
The flags dictionary is modelled as an insertion-ordered association
list; every key is inserted at most once. -/
structure PredictionResult where
  phase : String
  tomorrow_bias : String
  reasons : List String
  flags : List (String × String)
deriving DecidableEq, Repr

/-- The info dictionary returned by `range_type`; the `atr14` key is
present only when atr14 was available and nonzero. -/
structure RInfo where
  range_high : ℚ
  range_low : ℚ
  range : ℚ
  atr14 : Option ℚ
deriving DecidableEq, Repr

def dummyBar : Bar := ⟨0, 0, 0, 0, 0, 0⟩

def dummyFrame : Frame := ⟨0, 0, 0, 0, 0, 0, 0, 0, none, none, none⟩

/-- Positional row access (pandas `df.iloc[k]` / `df.loc[k]`); in the
source every access is in range, so the default value is never observed
there. -/
def frameAt (df : List Frame) (k : Nat) : Frame := (df.get? k).getD dummyFrame

/-! ## Indicator pipeline (src/analysis.py, `add_indicators`) -/

/-- `ewm(span, adjust=False).mean()` recurrence at position `t`:
`ema[0] = close[0]`, `ema[t] = α·close[t] + (1-α)·ema[t-1]`. -/
def emaAt (a : ℚ) (closes : List ℚ) : Nat → ℚ
  | 0 => closes.headD 0
  | t + 1 => a * ((closes.get? (t + 1)).getD 0) + (1 - a) * emaAt a closes t

/-- `rolling(wnd).mean()` at position `t`: `none` until the window is
full, otherwise the mean of the trailing `wnd` values. -/
def rollMeanAt (wnd : Nat) (xs : List ℚ) (t : Nat) : Option ℚ :=
  if t + 1 < wnd then none
  else some ((((xs.drop (t + 1 - wnd)).take wnd).sum) / (wnd : ℚ))

/-- src/analysis.py lines 18-25. Spans 9 and 20 give smoothing factors
2/10 and 2/21. -/
def add_indicators (df : List Bar) : List Frame :=
  let closes := df.map Bar.close
  let ranges := df.map (fun b => b.high - b.low)
  (List.range df.length).map fun t =>
    let b := (df.get? t).getD dummyBar
    { date := b.date, open_ := b.open_, high := b.high, low := b.low,
      close := b.close, volume := b.volume,
      ema9 := emaAt (2/10) closes t,
      ema20 := emaAt (2/21) closes t,
      sma50 := rollMeanAt 50 closes t,
      sma200 := rollMeanAt 200 closes t,
      atr14 := rollMeanAt 14 ranges t }

/-! ## Candle classifier (src/analysis.py, `candle_type`, lines 28-50) -/

def candle_type (df : List Frame) (i : Nat) : String :=
  if i < 1 then "N/A"
  else
    let cur := frameAt df i
    let prev := frameAt df (i - 1)
    let inside := cur.high ≤ prev.high ∧ cur.low ≥ prev.low
    let outside := cur.high ≥ prev.high ∧ cur.low ≤ prev.low
    let rng := cur.high - cur.low
    let long_bar : Bool :=
      match cur.atr14 with
      | some atr => if atr > 0 then decide (rng ≥ 3/2 * atr) else false
      | none => false
    if inside then "InsideBar"
    else if outside then "OutsideBar"
    else if long_bar then "LongBar"
    else "Normal"

/-! ## Phase classifier (src/analysis.py, `classify_phase_simple`) -/

/-- `df.iloc[-k:]` (trailing `k` rows; for `k = 0` Python's `-0 == 0`
yields the whole frame). -/
def ilocLast (k : Nat) (df : List Frame) : List Frame :=
  if k = 0 then df else df.drop (df.length - k)

/-- `df.iloc[-(2*lookback):-lookback]` (the window of the same length
immediately preceding the trailing one), with Python's clamping of
negative positions. -/
def ilocPrior (lookback : Nat) (df : List Frame) : List Frame :=
  let start := df.length - 2 * lookback
  let stop := df.length - lookback
  (df.drop start).take (stop - start)

/-- `Σ i·y_i` starting the index sequence at `k`; `iwSumFrom 0 ys` is
`np.dot(np.arange(len(ys)), ys)`. -/
def iwSumFrom (k : ℚ) : List ℚ → ℚ
  | [] => 0
  | y :: t => k * y + iwSumFrom (k + 1) t

def iSum (n : Nat) : ℚ := ((List.range n).map (fun k => (k : ℚ))).sum

def iSqSum (n : Nat) : ℚ := ((List.range n).map (fun k => ((k : ℚ)) ^ 2)).sum

/-- The slope of the ordinary-least-squares degree-1 fit of `ys` against
`0, 1, …, n-1`, which is what `np.polyfit(np.arange(n), ys, 1)[0]`
computes. -/
def polyfitSlope (ys : List ℚ) : ℚ :=
  let n := ys.length
  ((n : ℚ) * iwSumFrom 0 ys - iSum n * ys.sum) /
    ((n : ℚ) * iSqSum n - (iSum n) ^ 2)

/-- `np.sum(xs[1:] > xs[:-1])`: number of adjacent pairs that rose. -/
def countUp : List ℚ → Nat
  | a :: b :: t => (if a < b then 1 else 0) + countUp (b :: t)
  | _ => 0

/-- `np.sum(xs[1:] < xs[:-1])`: number of adjacent pairs that fell. -/
def countDown : List ℚ → Nat
  | a :: b :: t => (if b < a then 1 else 0) + countDown (b :: t)
  | _ => 0

/-- src/analysis.py lines 53-101. -/
def classify_phase_simple (df : List Frame) (lookback : Nat) :
    String × List String :=
  let n := df.length
  if n < lookback + 5 then ("Unknown", ["Not enough data"])
  else
    let w := ilocLast lookback df
    let slope := polyfitSlope (w.map Frame.close)
    let lastRow := (df.getLast?).getD dummyFrame
    let above_ema20 := lastRow.close > lastRow.ema20
    let below_ema20 := lastRow.close < lastRow.ema20
    let highs := w.map Frame.high
    let lows := w.map Frame.low
    let hh := countUp highs
    let hl := countUp lows
    let lh := countDown highs
    let ll := countDown lows
    if slope > 0 ∧ (hh + hl) > (lh + ll) ∧ above_ema20 then
      ("Advancing", ["Close trend up and above EMA20"])
    else if slope < 0 ∧ (lh + ll) > (hh + hl) ∧ below_ema20 then
      ("Declining", ["Close trend down and below EMA20"])
    else
      let prior := ilocPrior lookback df
      if 10 ≤ prior.length then
        let pslope := polyfitSlope (prior.map Frame.close)
        if pslope > 0 then
          ("ToppingRange", ["Stalling after uptrend → topping/range"])
        else if pslope < 0 then
          ("BottomingRange", ["Stalling after downtrend → bottoming/range"])
        else ("Range", ["Choppy/range-like structure"])
      else ("Range", ["Choppy/range-like structure"])

/-! ## Range & extension analyzer (src/analysis.py lines 104-144) -/

/-- `w["high"].max()` over a nonempty window (the empty case never
arises in the source because the input frame is nonempty). -/
def maxHigh : List Frame → ℚ
  | [] => 0
  | f :: t => t.foldl (fun m g => max m g.high) f.high

def minLow : List Frame → ℚ
  | [] => 0
  | f :: t => t.foldl (fun m g => min m g.low) f.low

/-- src/analysis.py lines 104-117; `none` models the IndexError raised
by `df.iloc[-1]` on an empty frame. -/
def range_type (df : List Frame) (lookback : Nat) :
    Option (String × RInfo) :=
  match df.getLast? with
  | none => none
  | some lastRow =>
    let w := ilocLast lookback df
    let hi := maxHigh w
    let lo := minLow w
    let rng := hi - lo
    match lastRow.atr14 with
    | none => some ("Unknown", ⟨hi, lo, rng, none⟩)
    | some atr =>
      if atr = 0 then some ("Unknown", ⟨hi, lo, rng, none⟩)
      else some (if rng ≤ 6/5 * atr then "Tight" else "Wide",
                 ⟨hi, lo, rng, some atr⟩)

/-- src/analysis.py lines 120-126 (reads only the latest row). -/
def is_extended_from_ema9 (lastRow : Frame) (mult : ℚ) : Bool :=
  match lastRow.atr14 with
  | none => false
  | some atr =>
    if atr = 0 then false
    else decide (|lastRow.close - lastRow.ema9| ≥ mult * atr)

/-- src/analysis.py lines 129-144 (reads only the latest row). -/
def reversal_candle_hint (lastRow : Frame) : Bool :=
  let o := lastRow.open_
  let h := lastRow.high
  let l := lastRow.low
  let c := lastRow.close
  let rng := h - l
  if rng = 0 then false
  else
    let body := |c - o|
    let upper_wick := h - max o c
    let lower_wick := min o c - l
    decide (body ≤ 1/4 * rng) ||
      decide (upper_wick ≥ 9/20 * rng) || decide (lower_wick ≥ 9/20 * rng)

/-! ## Prediction aggregator (src/analysis.py, `predict_tomorrow`) -/

/-- The ExecutionNote block, src/analysis.py lines 234-240, expressed as
the (possibly empty) list of flag entries it inserts. -/
def execNote (bt : String) : List (String × String) :=
  if bt = "InsideBar" then
    [("ExecutionNote", "InsideBar → quick partials, do not aim full ATR")]
  else if bt = "OutsideBar" then
    [("ExecutionNote", "OutsideBar → higher continuation odds, ATR more likely")]
  else if bt = "LongBar" then
    [("ExecutionNote", "LongBar → next day often pause/retrace, pinpoint or skip")]
  else []

/-- src/analysis.py lines 147-242. `none` models the IndexError raised
by `df.iloc[-1]` when the input series is empty; on nonempty input the
function always returns a result. In the source, `rinfo.get("range_high")`
and `rinfo.get("range_low")` are never `None` because `range_type`
always stores those keys, so the corresponding guards are identically
true and are embedded as such. -/
def predict_tomorrow (df_in : List Bar) : Option PredictionResult :=
  let df := add_indicators df_in
  match df.getLast? with
  | none => none
  | some lastRow =>
    let pr := classify_phase_simple df 20
    let phase := pr.1
    let preasons := pr.2
    let i := df.length - 1
    let sma50flag :=
      match lastRow.sma50 with
      | some s =>
        if lastRow.close > s then "Above"
        else if lastRow.close < s then "Below"
        else "At"
      | none => "N/A"
    let bt := candle_type df i
    if phase = "Advancing" ∨ phase = "Declining" then
      match range_type df 15 with
      | none => none
      | some (_rt, _rinfo) =>
        let brokePair : Bool × Bool :=
          if 16 < df.length then
            let prev_w := (df.drop (df.length - 16)).take 15
            (decide (lastRow.close > maxHigh prev_w),
             decide (lastRow.close < minLow prev_w))
          else (false, false)
        let broke_up := brokePair.1
        let broke_dn := brokePair.2
        let tb : String × List String :=
          if phase = "Advancing" ∧ broke_up = true then
            ("ContinuationLikely",
             ["Recent range break up → expect follow-through"])
          else if phase = "Declining" ∧ broke_dn = true then
            ("ContinuationLikely",
             ["Recent range break down → expect follow-through selling"])
          else if is_extended_from_ema9 lastRow (3/2) = true ∧
                  reversal_candle_hint lastRow = true then
            ("PauseOrReversalLikely",
             ["Extended from EMA9 + reversal hint → pause/reversal likely"])
          else
            ("ContinuationLikely", ["Phase intact → continuation bias"])
        some ⟨phase, tb.1, preasons ++ tb.2,
              [("50SMA", sma50flag), ("DailyBarType", bt)] ++ execNote bt⟩
    else
      match range_type df 15 with
      | none => none
      | some (rt, rinfo) =>
        let rh := rinfo.range_high
        let rl := rinfo.range_low
        let tb : String × List String :=
          if rt = "Tight" then
            ("AvoidUnlessFakeBreak", ["Tight range → avoid unless fake breakout"])
          else if rt = "Wide" then
            let px := lastRow.close
            let near_high := px ≥ rl + 4/5 * (rh - rl)
            let near_low := px ≤ rl + 1/5 * (rh - rl)
            let rev := reversal_candle_hint lastRow
            if near_high ∧ rev = true then
              ("OneDayDownBias",
               ["Wide range near high + confirmation hint → 1-day down bias"])
            else if near_low ∧ rev = true then
              ("OneDayUpBias",
               ["Wide range near low + confirmation hint → 1-day up bias"])
            else
              ("NoStrongPrediction",
               ["Range but no edge confirmation → no strong prediction"])
          else
            ("NoStrongPrediction", ["Range unclear → no strong prediction"])
        some ⟨phase, tb.1, preasons ++ tb.2,
              [("50SMA", sma50flag), ("DailyBarType", bt), ("RangeType", rt)]
                ++ execNote bt⟩

/-! ## Structure pivot engine (src/structure.py) -/

/-- `_initial_trend` (src/structure.py lines 15-27); it reads only row
`i`, so it is embedded as a function of that row. -/
def initial_trend (row : Frame) : String :=
  match row.sma50, row.sma200 with
  | some s50, some s200 =>
    if row.close ≥ s50 ∧ s50 ≥ s200 then "UP"
    else if row.close ≤ s50 ∧ s50 ≤ s200 then "DOWN"
    else "NEUTRAL"
  | _, _ => "NEUTRAL"

/-- The bootstrap scan (src/structure.py lines 56-60): the first
non-NEUTRAL per-row trend, or NEUTRAL if none exists. -/
def bootstrapTrend : List Frame → String
  | [] => "NEUTRAL"
  | f :: rest =>
    let t := initial_trend f
    if t = "NEUTRAL" then bootstrapTrend rest else t

/-- The mutable local variables of the `while` loop of
`build_structure_pivots` (src/structure.py lines 56-74), plus the
accumulated pivot list. -/
structure WalkState where
  state : String
  last_HL : Option ℚ
  last_LH : Option ℚ
  break_index : Option Nat
  prev_high : Option ℚ
  prev_low : Option ℚ
  pending_HH : Option Pivot
  pending_LL : Option Pivot
  pivots : List Pivot
deriving DecidableEq, Repr

def initState (st : String) : WalkState :=
  ⟨st, none, none, none, none, none, none, none, []⟩

def highAt (df : List Frame) (k : Nat) : ℚ := (frameAt df k).high

def lowAt (df : List Frame) (k : Nat) : ℚ := (frameAt df k).low

def dateAt (df : List Frame) (k : Nat) : Int := (frameAt df k).date

/-- `window["high"].idxmax()` over rows `start..stop`: the first index
attaining the maximal high (pandas `idxmax` returns the first
occurrence). -/
def idxmaxHigh (df : List Frame) (start stop : Nat) : Nat :=
  (List.range' start (stop + 1 - start)).foldl
    (fun best k => if highAt df k > highAt df best then k else best) start

/-- `window["low"].idxmin()` over rows `start..stop` (first occurrence
of the minimum). -/
def idxminLow (df : List Frame) (start stop : Nat) : Nat :=
  (List.range' start (stop + 1 - start)).foldl
    (fun best k => if lowAt df k < lowAt df best then k else best) start

/-- The body of the `while` loop of `build_structure_pivots`
(src/structure.py lines 77-246) for the bar at position `i`. Nat
subtraction gives exactly Python's `max(0, i - 2)` window clamping. -/
def stepAt (df : List Frame) (i : Nat) (s : WalkState) : WalkState :=
  let high := highAt df i
  let low := lowAt df i
  if s.state = "UP" then
    match s.last_HL with
    | none => { s with last_HL := some low }
    | some lhl =>
      if low > lhl then { s with last_HL := some low }
      else
        -- Break detected: low ≤ last_HL (lines 100-117)
        let hh_i := idxmaxHigh df (i - 2) i
        let pHH : Pivot := ⟨hh_i, dateAt df hh_i, highAt df hh_i, "HH"⟩
        { s with break_index := some i, pending_HH := some pHH,
                 state := "UP_CONFIRM_TOPPING", prev_high := some high }
  else if s.state = "UP_CONFIRM_TOPPING" then
    match s.prev_high with
    | some ph =>
      if high < ph then
        -- Lower high confirmed (lines 126-153)
        let ll_i := idxminLow df (i - 2) i
        let pLL : Pivot := ⟨ll_i, dateAt df ll_i, lowAt df ll_i, "LL"⟩
        let pivots2 :=
          (match s.pending_HH with
           | some p => s.pivots ++ [p]
           | none => s.pivots) ++ [pLL]
        ⟨"DOWN", none, some high, none, none, none, none, none, pivots2⟩
      else { s with prev_high := some high }
    | none => { s with prev_high := some high }
  else if s.state = "DOWN" then
    match s.last_LH with
    | none => { s with last_LH := some high }
    | some llh =>
      if high < llh then { s with last_LH := some high }
      else
        -- Break detected: high ≥ last_LH (lines 181-198)
        let ll_i := idxminLow df (i - 2) i
        let pLL : Pivot := ⟨ll_i, dateAt df ll_i, lowAt df ll_i, "LL"⟩
        { s with break_index := some i, pending_LL := some pLL,
                 state := "DOWN_CONFIRM_BOTTOMING", prev_low := some low }
  else if s.state = "DOWN_CONFIRM_BOTTOMING" then
    match s.prev_low with
    | some pl =>
      if low > pl then
        -- Higher low confirmed (lines 207-234)
        let hh_i := idxmaxHigh df (i - 2) i
        let pHH : Pivot := ⟨hh_i, dateAt df hh_i, highAt df hh_i, "HH"⟩
        let pivots2 :=
          (match s.pending_LL with
           | some p => s.pivots ++ [p]
           | none => s.pivots) ++ [pHH]
        ⟨"UP", some low, none, none, none, none, none, none, pivots2⟩
      else { s with prev_low := some low }
    | none => { s with prev_low := some low }
  else s

/-- The `while i < len(df)` loop, driven by a fuel counter that is
initialised to `df.length` so that the loop runs to the end of the
series. -/
def walkSteps (df : List Frame) : Nat → Nat → WalkState → WalkState
  | 0, _, s => s
  | fuel + 1, i, s =>
    if i < df.length then walkSteps df fuel (i + 1) (stepAt df i s) else s

def finalWalk (df : List Frame) : WalkState :=
  walkSteps df df.length 0 (initState (bootstrapTrend df))

/-- End-of-data handling of unconfirmed pending pivots
(src/structure.py lines 251-279): the best-effort counterpart over the
final 3 bars is emitted only when the series has at least 3 bars. -/
def endOfData (df : List Frame) (s : WalkState) : List Pivot :=
  if s.state = "UP_CONFIRM_TOPPING" then
    match s.pending_HH with
    | some p =>
      let base := s.pivots ++ [p]
      if 3 ≤ df.length then
        let ll_i := idxminLow df (df.length - 3) (df.length - 1)
        base ++ [⟨ll_i, dateAt df ll_i, lowAt df ll_i, "LL"⟩]
      else base
    | none => s.pivots
  else if s.state = "DOWN_CONFIRM_BOTTOMING" then
    match s.pending_LL with
    | some p =>
      let base := s.pivots ++ [p]
      if 3 ≤ df.length then
        let hh_i := idxmaxHigh df (df.length - 3) (df.length - 1)
        base ++ [⟨hh_i, dateAt df hh_i, highAt df hh_i, "HH"⟩]
      else base
    | none => s.pivots
  else s.pivots

/-- One grouping step of the consecutive-same-kind cleanup
(src/structure.py lines 283-304): `cur` is the most extreme pivot of
the group scanned so far; a streaming left fold over each group
computes exactly `max(group, key=price)` / `min(group, key=price)`
with pandas-free first-occurrence tie-breaking. -/
def cleanAux (cur : Pivot) : List Pivot → List Pivot
  | [] => [cur]
  | p :: rest =>
    if p.kind = cur.kind then
      let cur2 :=
        if cur.kind = "HH" then (if p.price > cur.price then p else cur)
        else (if p.price < cur.price then p else cur)
      cleanAux cur2 rest
    else cur :: cleanAux p rest

def cleanPass : List Pivot → List Pivot
  | [] => []
  | p :: rest => cleanAux p rest

/-- One step of the final safety pass (src/structure.py lines 307-318). -/
def finalStep (acc : List Pivot) (p : Pivot) : List Pivot :=
  match acc.getLast? with
  | none => [p]
  | some q =>
    if q.kind ≠ p.kind then acc ++ [p]
    else if p.kind = "HH" ∧ p.price > q.price then acc.dropLast ++ [p]
    else if p.kind = "LL" ∧ p.price < q.price then acc.dropLast ++ [p]
    else acc

def finalPass (l : List Pivot) : List Pivot := l.foldl finalStep []

/-- src/structure.py lines 30-320. -/
def build_structure_pivots (df : List Frame) : List Pivot :=
  if df.isEmpty then []
  else
    let st0 := bootstrapTrend df
    if st0 = "NEUTRAL" then []
    else finalPass (cleanPass (endOfData df (finalWalk df)))

/-! ## Spec-side definition for the candle-classification refinement
claim: a direct transcription of the specification's wording, to be
compared with `candle_type` above. -/

/-- First-match classification exactly as §4.2 of the spec words it:
InsideBar if high ≤ previous high and low ≥ previous low; else
OutsideBar if high ≥ previous high and low ≤ previous low; else LongBar
if (high−low) ≥ 1.5 × atr14 with atr14 available and positive; else
Normal. -/
def candleSpec (prev cur : Frame) : String :=
  if cur.high ≤ prev.high ∧ cur.low ≥ prev.low then "InsideBar"
  else if cur.high ≥ prev.high ∧ cur.low ≤ prev.low then "OutsideBar"
  else
    match cur.atr14 with
    | some a =>
      if 0 < a ∧ cur.high - cur.low ≥ 3/2 * a then "LongBar" else "Normal"
    | none => "Normal"

/-! ## Invariant predicates -/

/-- Adjacent pivots never share a kind. -/
def AltKinds (l : List Pivot) : Prop :=
  l.Chain' (fun a b => a.kind ≠ b.kind)

/-- The pivot's index is a position of the series and its price is that
bar's high (HH) or low (LL). -/
def GoodPivot (df : List Frame) (p : Pivot) : Prop :=
  p.i < df.length ∧ (p.kind = "HH" ∨ p.kind = "LL") ∧
    (p.kind = "HH" → p.price = highAt df p.i) ∧
    (p.kind = "LL" → p.price = lowAt df p.i)

/-- All pivots stored in a walk state (emitted or pending) are good. -/
def GoodState (df : List Frame) (s : WalkState) : Prop :=
  (∀ p ∈ s.pivots, GoodPivot df p) ∧
    (∀ p, s.pending_HH = some p → GoodPivot df p) ∧
    (∀ p, s.pending_LL = some p → GoodPivot df p)

/-! ## Concrete input series used by the counterexamples and witnesses -/

/-- A frame whose moving-average columns bootstrap an immediate uptrend
(`close ≥ sma50 ≥ sma200`). -/
def upSeed : Frame :=
  { date := 0, open_ := 9, high := 10, low := 5, close := 9, volume := 0,
    ema9 := 0, ema20 := 0, sma50 := some 8, sma200 := some 7, atr14 := none }

/-- A plain frame with the given date, high, low and close; the
indicator columns are absent or zero (they are irrelevant after the
trend has bootstrapped). -/
def mkFrame (d : Int) (h l c : ℚ) : Frame :=
  { date := d, open_ := c, high := h, low := l, close := c, volume := 0,
    ema9 := 0, ema20 := 0, sma50 := none, sma200 := none, atr14 := none }

/-- Four bars: uptrend, higher low, break at bar 2 whose high is the
3-bar maximum, then a lower high at bar 3 whose 3-bar minimum low sits
at bar 1.  The engine emits HH at index 2 followed by LL at index 1:
indices out of order. -/
def exIdx : List Frame :=
  [upSeed, mkFrame 1 11 6 10, mkFrame 2 12 6 7, mkFrame 3 (23/2) 7 8]

/-- Two bars: the uptrend breaks on the last bar, leaving the walk in
the confirmation-wait state with a pending HH and fewer than 3 bars. -/
def exDangling : List Frame := [upSeed, mkFrame 1 11 5 10]

/-- Three bars ending in the confirmation-wait state with a pending HH;
the series is long enough for the best-effort counterpart. -/
def exPending3 : List Frame := [upSeed, mkFrame 1 11 6 10, mkFrame 2 12 6 7]

/-- A malformed bar: `high < low`. -/
def malBar : Bar := { date := 0, open_ := 7, high := 5, low := 9, close := 7, volume := 0 }

/-- 25 frames with strictly increasing closes, highs and lows, whose
last close is above its ema20 column. -/
def advFrames : List Frame :=
  [mkFrame 0 2 0 1,
   mkFrame 1 3 1 2,
   mkFrame 2 4 2 3,
   mkFrame 3 5 3 4,
   mkFrame 4 6 4 5,
   mkFrame 5 7 5 6,
   mkFrame 6 8 6 7,
   mkFrame 7 9 7 8,
   mkFrame 8 10 8 9,
   mkFrame 9 11 9 10,
   mkFrame 10 12 10 11,
   mkFrame 11 13 11 12,
   mkFrame 12 14 12 13,
   mkFrame 13 15 13 14,
   mkFrame 14 16 14 15,
   mkFrame 15 17 15 16,
   mkFrame 16 18 16 17,
   mkFrame 17 19 17 18,
   mkFrame 18 20 18 19,
   mkFrame 19 21 19 20,
   mkFrame 20 22 20 21,
   mkFrame 21 23 21 22,
   mkFrame 22 24 22 23,
   mkFrame 23 25 23 24,
   mkFrame 24 26 24 25]

/-- Previous/current frames of the spec's worked candle example:
previous `{high=11, low=7}`, current `{high=10, low=8}`. -/
def c7df : List Frame := [mkFrame 0 11 7 9, mkFrame 1 10 8 9]

/-- The HH pivot that `build_structure_pivots exIdx` returns first. -/
def wHH : Pivot := ⟨2, 2, 12, "HH"⟩

/-- The LL pivot that `build_structure_pivots exIdx` returns second. -/
def wLL : Pivot := ⟨1, 1, 6, "LL"⟩

/-- One frame whose trailing-window width (6) is exactly 1.2 × atr14
(atr14 = 5). -/
def c8df : List Frame :=
  [{ date := 0, open_ := 3, high := 6, low := 0, close := 3, volume := 0,
     ema9 := 0, ema20 := 0, sma50 := none, sma200 := none, atr14 := some 5 }]

section Proofs

attribute [local semireducible] Rat.sub Rat.add Rat.mul Rat.inv

/-! ## Lemmas about the final safety pass -/

theorem finalStep_ne_nil (acc : List Pivot) (p : Pivot) : finalStep acc p ≠ [] := by
  unfold finalStep
  cases hq : acc.getLast? with
  | none => simp
  | some q =>
    have hacc : acc ≠ [] := by
      intro he
      rw [he] at hq
      simp at hq
    dsimp only
    split_ifs <;> simp_all

theorem altKinds_finalStep {acc : List Pivot} (h : AltKinds acc) (p : Pivot) :
    AltKinds (finalStep acc p) := by
  unfold finalStep
  cases hq : acc.getLast? with
  | none => simp [AltKinds]
  | some q =>
    have hacc : acc ≠ [] := by
      intro he
      rw [he] at hq
      simp at hq
    have hdl : acc.dropLast ++ [q] = acc := by
      have h1 := List.dropLast_append_getLast hacc
      have h2 : acc.getLast hacc = q := by
        have := List.getLast?_eq_getLast acc hacc
        rw [this] at hq
        exact Option.some.inj hq
      rw [h2] at h1
      exact h1
    have hsplit : AltKinds acc.dropLast ∧
        ∀ x ∈ acc.dropLast.getLast?, x.kind ≠ q.kind := by
      have h' : AltKinds (acc.dropLast ++ [q]) := by rw [hdl]; exact h
      unfold AltKinds at h'
      rw [List.chain'_append] at h'
      exact ⟨h'.1, fun x hx => h'.2.2 x hx q rfl⟩
    dsimp only
    split_ifs with h1 h2 h3
    · -- different kind: append
      unfold AltKinds
      rw [List.chain'_append]
      refine ⟨h, List.chain'_singleton p, ?_⟩
      intro x hx y hy
      rw [hq] at hx
      simp at hx hy
      rw [← hx, ← hy]
      exact h1
    · -- same kind, more extreme HH: replace last
      unfold AltKinds
      rw [List.chain'_append]
      refine ⟨hsplit.1, List.chain'_singleton p, ?_⟩
      intro x hx y hy
      simp at hy
      rw [← hy]
      have hk : x.kind ≠ q.kind := hsplit.2 x hx
      have : q.kind = p.kind := by
        by_contra hne
        exact h1 hne
      rw [← this]
      exact hk
    · -- same kind, more extreme LL: replace last
      unfold AltKinds
      rw [List.chain'_append]
      refine ⟨hsplit.1, List.chain'_singleton p, ?_⟩
      intro x hx y hy
      simp at hy
      rw [← hy]
      have hk : x.kind ≠ q.kind := hsplit.2 x hx
      have : q.kind = p.kind := by
        by_contra hne
        exact h1 hne
      rw [← this]
      exact hk
    · exact h

theorem altKinds_foldl (l : List Pivot) :
    ∀ acc, AltKinds acc → AltKinds (l.foldl finalStep acc) := by
  induction l with
  | nil => intro acc h; exact h
  | cons p t ih =>
    intro acc h
    exact ih (finalStep acc p) (altKinds_finalStep h p)

theorem altKinds_finalPass (l : List Pivot) : AltKinds (finalPass l) :=
  altKinds_foldl l [] (List.chain'_nil)

/-- C1: For every input series, the pivot list returned by
`build_structure_pivots` strictly alternates kind: no two consecutive
pivots are both HH or both LL. -/
theorem C1_pivots_alternate (df : List Frame) :
    (build_structure_pivots df).Chain' (fun a b => a.kind ≠ b.kind) := by
  unfold build_structure_pivots
  split
  · exact List.chain'_nil
  · dsimp only
    split
    · exact List.chain'_nil
    · exact altKinds_finalPass _

/-! ## Last-element lemmas for the post-processing passes -/

theorem finalStep_getLast (acc : List Pivot) (p : Pivot) :
    ∃ r, (finalStep acc p).getLast? = some r ∧ r.kind = p.kind := by
  unfold finalStep
  cases hq : acc.getLast? with
  | none => exact ⟨p, by simp, rfl⟩
  | some q =>
    dsimp only
    split_ifs with h1 h2 h3
    · exact ⟨p, by simp, rfl⟩
    · exact ⟨p, by simp, rfl⟩
    · exact ⟨p, by simp, rfl⟩
    · refine ⟨q, hq, ?_⟩
      by_contra hne
      exact h1 hne

theorem foldl_finalStep_getLast :
    ∀ (l : List Pivot) (acc : List Pivot) (q : Pivot), l.getLast? = some q →
      ∃ r, (l.foldl finalStep acc).getLast? = some r ∧ r.kind = q.kind := by
  intro l
  induction l with
  | nil => intro acc q h; simp at h
  | cons p t ih =>
    intro acc q h
    cases t with
    | nil =>
      simp at h
      subst h
      simpa using finalStep_getLast acc p
    | cons b t2 =>
      rw [List.getLast?_cons_cons] at h
      exact ih (finalStep acc p) q h

theorem finalPass_getLast (l : List Pivot) (q : Pivot) (h : l.getLast? = some q) :
    ∃ r, (finalPass l).getLast? = some r ∧ r.kind = q.kind :=
  foldl_finalStep_getLast l [] q h

theorem cleanAux_ne_nil (l : List Pivot) : ∀ cur, cleanAux cur l ≠ [] := by
  induction l with
  | nil => intro cur; simp [cleanAux]
  | cons p t ih =>
    intro cur
    unfold cleanAux
    by_cases h : p.kind = cur.kind
    · rw [if_pos h]
      exact ih _
    · rw [if_neg h]
      simp

theorem cleanAux_getLast :
    ∀ (l : List Pivot) (cur q : Pivot), (cur :: l).getLast? = some q →
      ∃ r, (cleanAux cur l).getLast? = some r ∧ r.kind = q.kind := by
  intro l
  induction l with
  | nil =>
    intro cur q h
    simp at h
    subst h
    exact ⟨cur, by simp [cleanAux], rfl⟩
  | cons p t ih =>
    intro cur q h
    rw [List.getLast?_cons_cons] at h
    unfold cleanAux
    by_cases hk : p.kind = cur.kind
    · -- same kind: fold the group forward
      rw [if_pos hk]
      cases t with
      | nil =>
        simp at h
        subst h
        refine ⟨_, rfl, ?_⟩
        dsimp only
        split_ifs <;> simp [hk]
      | cons b t2 =>
        rw [List.getLast?_cons_cons] at h
        exact ih _ q (by rw [List.getLast?_cons_cons]; exact h)
    · -- kind changes: close the group and recurse
      rw [if_neg hk]
      obtain ⟨x, xs, hxl⟩ := List.exists_cons_of_ne_nil (cleanAux_ne_nil t p)
      obtain ⟨r, hr, hrk⟩ := ih p q h
      refine ⟨r, ?_, hrk⟩
      rw [hxl, List.getLast?_cons_cons, ← hxl]
      exact hr

theorem cleanPass_getLast (l : List Pivot) (q : Pivot) (h : l.getLast? = some q) :
    ∃ r, (cleanPass l).getLast? = some r ∧ r.kind = q.kind := by
  cases l with
  | nil => simp at h
  | cons p t => exact cleanAux_getLast t p q h

/-! ## The NEUTRAL state is absorbing -/

theorem stepAt_neutral (df : List Frame) (i : Nat) (s : WalkState)
    (h : s.state = "NEUTRAL") : stepAt df i s = s := by
  unfold stepAt
  rw [h]
  simp

theorem walkSteps_neutral (df : List Frame) :
    ∀ (fuel i : Nat) (s : WalkState), s.state = "NEUTRAL" →
      walkSteps df fuel i s = s := by
  intro fuel
  induction fuel with
  | zero => intro i s _; rfl
  | succ n ih =>
    intro i s h
    unfold walkSteps
    split
    · rw [stepAt_neutral df i s h]
      exact ih (i + 1) s h
    · rfl

/-- C2 counterexample: on `exIdx` the engine returns the HH at index 2
followed by the LL at index 1 — the pivot sequence is not sorted by
index ascending. -/
theorem C2_counterexample :
    build_structure_pivots exIdx =
      [⟨2, 2, 12, "HH"⟩, ⟨1, 1, 6, "LL"⟩] ∧
    ¬ ((build_structure_pivots exIdx).Chain' (fun a b => a.i < b.i)) := by
  have he : build_structure_pivots exIdx =
      [⟨2, 2, 12, "HH"⟩, ⟨1, 1, 6, "LL"⟩] := by decide
  refine ⟨he, ?_⟩
  rw [he, List.chain'_cons]
  rintro ⟨h1, -⟩
  exact absurd h1 (by decide)

/-- C4 counterexample: on the 2-bar series `exDangling` the walk ends in
the confirmation-wait state with a pending HH, yet the returned sequence
is that single HH with no best-effort LL counterpart — it ends on a
dangling unconfirmed half-pair. -/
theorem C4_counterexample :
    (finalWalk exDangling).state = "UP_CONFIRM_TOPPING" ∧
    (finalWalk exDangling).pending_HH.isSome = true ∧
    build_structure_pivots exDangling = [⟨1, 1, 11, "HH"⟩] := by
  decide

/-- C4 amended: when the series has at least 3 bars and the walk ends in
a confirmation-wait state with a pending pivot, the returned sequence
ends with a pivot of the counterpart kind (LL after a pending HH, HH
after a pending LL); with fewer than 3 bars only the pending pivot is
emitted. -/
theorem C4_amended_counterpart (df : List Frame) (h3 : 3 ≤ df.length) :
    ((finalWalk df).state = "UP_CONFIRM_TOPPING" →
      (finalWalk df).pending_HH.isSome = true →
      ∃ q, (build_structure_pivots df).getLast? = some q ∧ q.kind = "LL") ∧
    ((finalWalk df).state = "DOWN_CONFIRM_BOTTOMING" →
      (finalWalk df).pending_LL.isSome = true →
      ∃ q, (build_structure_pivots df).getLast? = some q ∧ q.kind = "HH") := by
  have hne : df ≠ [] := by
    intro h
    rw [h] at h3
    simp at h3
  have hie : ¬ (df.isEmpty = true) := by
    cases df with
    | nil => exact absurd rfl hne
    | cons a t => simp
  constructor
  · intro hst hp
    have hboot : ¬ (bootstrapTrend df = "NEUTRAL") := by
      intro hb
      have hw : finalWalk df = initState (bootstrapTrend df) :=
        walkSteps_neutral df df.length 0 _ (by simp [initState, hb])
      rw [hw] at hst
      simp [initState, hb] at hst
    obtain ⟨p, hpend⟩ := Option.isSome_iff_exists.mp hp
    unfold build_structure_pivots
    rw [if_neg hie]
    dsimp only
    rw [if_neg hboot]
    have hlast : ∃ a, (endOfData df (finalWalk df)).getLast? = some a ∧
        a.kind = "LL" := by
      unfold endOfData
      rw [if_pos hst, hpend]
      dsimp only
      rw [if_pos h3]
      exact ⟨_, List.getLast?_concat _, rfl⟩
    obtain ⟨a, ha, hak⟩ := hlast
    obtain ⟨r1, hr1, hk1⟩ := cleanPass_getLast _ _ ha
    obtain ⟨r2, hr2, hk2⟩ := finalPass_getLast _ r1 hr1
    exact ⟨r2, hr2, (hk2.trans hk1).trans hak⟩
  · intro hst hp
    have hboot : ¬ (bootstrapTrend df = "NEUTRAL") := by
      intro hb
      have hw : finalWalk df = initState (bootstrapTrend df) :=
        walkSteps_neutral df df.length 0 _ (by simp [initState, hb])
      rw [hw] at hst
      simp [initState, hb] at hst
    obtain ⟨p, hpend⟩ := Option.isSome_iff_exists.mp hp
    unfold build_structure_pivots
    rw [if_neg hie]
    dsimp only
    rw [if_neg hboot]
    have hstu : ¬ ((finalWalk df).state = "UP_CONFIRM_TOPPING") := by
      rw [hst]
      decide
    have hlast : ∃ a, (endOfData df (finalWalk df)).getLast? = some a ∧
        a.kind = "HH" := by
      unfold endOfData
      rw [if_neg hstu, if_pos hst, hpend]
      dsimp only
      rw [if_pos h3]
      exact ⟨_, List.getLast?_concat _, rfl⟩
    obtain ⟨a, ha, hak⟩ := hlast
    obtain ⟨r1, hr1, hk1⟩ := cleanPass_getLast _ _ ha
    obtain ⟨r2, hr2, hk2⟩ := finalPass_getLast _ r1 hr1
    exact ⟨r2, hr2, (hk2.trans hk1).trans hak⟩

/-- Witness for the amended C4 at the concrete 3-bar series. -/
theorem C4_witness :
    3 ≤ exPending3.length ∧
    (∃ q, (build_structure_pivots exPending3).getLast? = some q ∧
      q.kind = "LL") :=
  ⟨by decide,
   (C4_amended_counterpart exPending3 (by decide)).1 (by decide) (by decide)⟩

/-! ## Every emitted pivot carries a real bar price at a valid index -/

theorem foldl_pick_mem (P : Nat → Nat → Prop) [DecidableRel P] :
    ∀ (l : List Nat) (a : Nat),
      l.foldl (fun best k => if P best k then k else best) a ∈ a :: l := by
  intro l
  induction l with
  | nil => intro a; simp
  | cons k t ih =>
    intro a
    have h := ih (if P a k then k else a)
    simp only [List.foldl_cons]
    rcases List.mem_cons.mp h with h1 | h1
    · by_cases hc : P a k
      · rw [if_pos hc] at h1 ⊢
        rw [h1]
        simp
      · rw [if_neg hc] at h1 ⊢
        rw [h1]
        simp
    · exact List.mem_cons_of_mem _ (List.mem_cons_of_mem _ h1)

theorem idxmaxHigh_le (df : List Frame) (start stop : Nat) (h : start ≤ stop) :
    idxmaxHigh df start stop ≤ stop := by
  have hm := foldl_pick_mem (fun best k => highAt df k > highAt df best)
    (List.range' start (stop + 1 - start)) start
  unfold idxmaxHigh
  rcases List.mem_cons.mp hm with h1 | h1
  · rw [h1]
    exact h
  · rw [List.mem_range'_1] at h1
    omega

theorem idxminLow_le (df : List Frame) (start stop : Nat) (h : start ≤ stop) :
    idxminLow df start stop ≤ stop := by
  have hm := foldl_pick_mem (fun best k => lowAt df k < lowAt df best)
    (List.range' start (stop + 1 - start)) start
  unfold idxminLow
  rcases List.mem_cons.mp hm with h1 | h1
  · rw [h1]
    exact h
  · rw [List.mem_range'_1] at h1
    omega

theorem goodPivot_hh (df : List Frame) (i : Nat) (hi : i < df.length) :
    GoodPivot df ⟨idxmaxHigh df (i - 2) i, dateAt df (idxmaxHigh df (i - 2) i),
      highAt df (idxmaxHigh df (i - 2) i), "HH"⟩ := by
  have hle := idxmaxHigh_le df (i - 2) i (Nat.sub_le i 2)
  refine ⟨?_, Or.inl rfl, fun _ => rfl, fun h => ?_⟩
  · show idxmaxHigh df (i - 2) i < df.length
    omega
  · simp at h

theorem goodPivot_ll (df : List Frame) (i : Nat) (hi : i < df.length) :
    GoodPivot df ⟨idxminLow df (i - 2) i, dateAt df (idxminLow df (i - 2) i),
      lowAt df (idxminLow df (i - 2) i), "LL"⟩ := by
  have hle := idxminLow_le df (i - 2) i (Nat.sub_le i 2)
  refine ⟨?_, Or.inr rfl, fun h => ?_, fun _ => rfl⟩
  · show idxminLow df (i - 2) i < df.length
    omega
  · simp at h

theorem goodPivot_hh_last (df : List Frame) (h3 : 3 ≤ df.length) :
    GoodPivot df ⟨idxmaxHigh df (df.length - 3) (df.length - 1),
      dateAt df (idxmaxHigh df (df.length - 3) (df.length - 1)),
      highAt df (idxmaxHigh df (df.length - 3) (df.length - 1)), "HH"⟩ := by
  have hle := idxmaxHigh_le df (df.length - 3) (df.length - 1) (by omega)
  refine ⟨?_, Or.inl rfl, fun _ => rfl, fun h => ?_⟩
  · show idxmaxHigh df (df.length - 3) (df.length - 1) < df.length
    omega
  · simp at h

theorem goodPivot_ll_last (df : List Frame) (h3 : 3 ≤ df.length) :
    GoodPivot df ⟨idxminLow df (df.length - 3) (df.length - 1),
      dateAt df (idxminLow df (df.length - 3) (df.length - 1)),
      lowAt df (idxminLow df (df.length - 3) (df.length - 1)), "LL"⟩ := by
  have hle := idxminLow_le df (df.length - 3) (df.length - 1) (by omega)
  refine ⟨?_, Or.inr rfl, fun h => ?_, fun _ => rfl⟩
  · show idxminLow df (df.length - 3) (df.length - 1) < df.length
    omega
  · simp at h

theorem good_append {df : List Frame} {l : List Pivot} {p : Pivot}
    (hl : ∀ q ∈ l, GoodPivot df q) (hp : GoodPivot df p) :
    ∀ q ∈ l ++ [p], GoodPivot df q := by
  intro q hq
  rcases List.mem_append.mp hq with h | h
  · exact hl q h
  · rw [List.mem_singleton.mp h]
    exact hp

theorem stepAt_good (df : List Frame) (i : Nat) (s : WalkState)
    (hi : i < df.length) (hs : GoodState df s) : GoodState df (stepAt df i s) := by
  obtain ⟨hpiv, hHH, hLL⟩ := hs
  unfold stepAt
  by_cases h1 : s.state = "UP"
  · rw [if_pos h1]
    cases hlhl : s.last_HL with
    | none => exact ⟨hpiv, hHH, hLL⟩
    | some lhl =>
      dsimp only
      by_cases hlow : lowAt df i > lhl
      · rw [if_pos hlow]
        exact ⟨hpiv, hHH, hLL⟩
      · rw [if_neg hlow]
        exact ⟨hpiv,
          fun p hp => (Option.some.inj hp) ▸ goodPivot_hh df i hi, hLL⟩
  · rw [if_neg h1]
    by_cases h2 : s.state = "UP_CONFIRM_TOPPING"
    · rw [if_pos h2]
      cases hph : s.prev_high with
      | none => exact ⟨hpiv, hHH, hLL⟩
      | some ph =>
        dsimp only
        by_cases hhigh : highAt df i < ph
        · rw [if_pos hhigh]
          cases hpend : s.pending_HH with
          | none =>
            exact ⟨good_append hpiv (goodPivot_ll df i hi),
              fun p hp => Option.noConfusion hp,
              fun p hp => Option.noConfusion hp⟩
          | some pp =>
            exact ⟨good_append (good_append hpiv (hHH pp hpend))
                (goodPivot_ll df i hi),
              fun p hp => Option.noConfusion hp,
              fun p hp => Option.noConfusion hp⟩
        · rw [if_neg hhigh]
          exact ⟨hpiv, hHH, hLL⟩
    · rw [if_neg h2]
      by_cases h3 : s.state = "DOWN"
      · rw [if_pos h3]
        cases hllh : s.last_LH with
        | none => exact ⟨hpiv, hHH, hLL⟩
        | some llh =>
          dsimp only
          by_cases hhigh : highAt df i < llh
          · rw [if_pos hhigh]
            exact ⟨hpiv, hHH, hLL⟩
          · rw [if_neg hhigh]
            exact ⟨hpiv, hHH,
              fun p hp => (Option.some.inj hp) ▸ goodPivot_ll df i hi⟩
      · rw [if_neg h3]
        by_cases h4 : s.state = "DOWN_CONFIRM_BOTTOMING"
        · rw [if_pos h4]
          cases hpl : s.prev_low with
          | none => exact ⟨hpiv, hHH, hLL⟩
          | some pl =>
            dsimp only
            by_cases hlow : lowAt df i > pl
            · rw [if_pos hlow]
              cases hpend : s.pending_LL with
              | none =>
                exact ⟨good_append hpiv (goodPivot_hh df i hi),
                  fun p hp => Option.noConfusion hp,
                  fun p hp => Option.noConfusion hp⟩
              | some pp =>
                exact ⟨good_append (good_append hpiv (hLL pp hpend))
                    (goodPivot_hh df i hi),
                  fun p hp => Option.noConfusion hp,
                  fun p hp => Option.noConfusion hp⟩
            · rw [if_neg hlow]
              exact ⟨hpiv, hHH, hLL⟩
        · rw [if_neg h4]
          exact ⟨hpiv, hHH, hLL⟩

theorem walkSteps_good (df : List Frame) :
    ∀ (fuel i : Nat) (s : WalkState), GoodState df s →
      GoodState df (walkSteps df fuel i s) := by
  intro fuel
  induction fuel with
  | zero => intro i s hs; exact hs
  | succ n ih =>
    intro i s hs
    unfold walkSteps
    split
    · next h => exact ih (i + 1) (stepAt df i s) (stepAt_good df i s h hs)
    · exact hs

theorem endOfData_good (df : List Frame) (s : WalkState)
    (hs : GoodState df s) : ∀ p ∈ endOfData df s, GoodPivot df p := by
  obtain ⟨hpiv, hHH, hLL⟩ := hs
  unfold endOfData
  by_cases h1 : s.state = "UP_CONFIRM_TOPPING"
  · rw [if_pos h1]
    cases hp : s.pending_HH with
    | none => exact hpiv
    | some p =>
      dsimp only
      by_cases h3 : 3 ≤ df.length
      · rw [if_pos h3]
        exact good_append (good_append hpiv (hHH p hp))
          (goodPivot_ll_last df h3)
      · rw [if_neg h3]
        exact good_append hpiv (hHH p hp)
  · rw [if_neg h1]
    by_cases h2 : s.state = "DOWN_CONFIRM_BOTTOMING"
    · rw [if_pos h2]
      cases hp : s.pending_LL with
      | none => exact hpiv
      | some p =>
        dsimp only
        by_cases h3 : 3 ≤ df.length
        · rw [if_pos h3]
          exact good_append (good_append hpiv (hLL p hp))
            (goodPivot_hh_last df h3)
        · rw [if_neg h3]
          exact good_append hpiv (hLL p hp)
    · rw [if_neg h2]
      exact hpiv

theorem mem_finalStep {q : Pivot} {acc : List Pivot} {p : Pivot}
    (h : q ∈ finalStep acc p) : q ∈ acc ∨ q = p := by
  unfold finalStep at h
  cases hl : acc.getLast? with
  | none =>
    rw [hl] at h
    simp at h
    exact Or.inr h
  | some x =>
    rw [hl] at h
    dsimp only at h
    split_ifs at h with h1 h2 h3
    · rcases List.mem_append.mp h with h4 | h4
      · exact Or.inl h4
      · exact Or.inr (List.mem_singleton.mp h4)
    · rcases List.mem_append.mp h with h4 | h4
      · exact Or.inl ((List.dropLast_sublist acc).subset h4)
      · exact Or.inr (List.mem_singleton.mp h4)
    · rcases List.mem_append.mp h with h4 | h4
      · exact Or.inl ((List.dropLast_sublist acc).subset h4)
      · exact Or.inr (List.mem_singleton.mp h4)
    · exact Or.inl h

theorem mem_foldl_finalStep :
    ∀ (l acc : List Pivot) (q : Pivot), q ∈ l.foldl finalStep acc →
      q ∈ acc ∨ q ∈ l := by
  intro l
  induction l with
  | nil => intro acc q h; exact Or.inl h
  | cons p t ih =>
    intro acc q h
    rcases ih (finalStep acc p) q h with h1 | h1
    · rcases mem_finalStep h1 with h2 | h2
      · exact Or.inl h2
      · exact Or.inr (by rw [h2]; exact List.mem_cons_self p t)
    · exact Or.inr (List.mem_cons_of_mem p h1)

theorem mem_cleanAux :
    ∀ (l : List Pivot) (cur q : Pivot), q ∈ cleanAux cur l →
      q = cur ∨ q ∈ l := by
  intro l
  induction l with
  | nil =>
    intro cur q h
    simp [cleanAux] at h
    exact Or.inl h
  | cons p t ih =>
    intro cur q h
    unfold cleanAux at h
    by_cases hk : p.kind = cur.kind
    · rw [if_pos hk] at h
      rcases ih _ q h with h1 | h1
      · split_ifs at h1
        · exact Or.inr (by rw [h1]; exact List.mem_cons_self p t)
        · exact Or.inl h1
        · exact Or.inr (by rw [h1]; exact List.mem_cons_self p t)
        · exact Or.inl h1
      · exact Or.inr (List.mem_cons_of_mem p h1)
    · rw [if_neg hk] at h
      rcases List.mem_cons.mp h with h1 | h1
      · exact Or.inl h1
      · rcases ih p q h1 with h2 | h2
        · exact Or.inr (by rw [h2]; exact List.mem_cons_self p t)
        · exact Or.inr (List.mem_cons_of_mem p h2)

theorem initState_good (df : List Frame) (st : String) :
    GoodState df (initState st) :=
  ⟨fun p hp => absurd hp (List.not_mem_nil p),
   fun _ hp => Option.noConfusion hp,
   fun _ hp => Option.noConfusion hp⟩

theorem build_pivot_good (df : List Frame) (p : Pivot)
    (h : p ∈ build_structure_pivots df) : GoodPivot df p := by
  unfold build_structure_pivots at h
  split at h
  · exact absurd h (List.not_mem_nil p)
  · dsimp only at h
    split at h
    · exact absurd h (List.not_mem_nil p)
    · unfold finalPass at h
      rcases mem_foldl_finalStep _ _ _ h with h1 | h1
      · exact absurd h1 (List.not_mem_nil p)
      · have hgood : ∀ q ∈ endOfData df (finalWalk df), GoodPivot df q :=
          endOfData_good df _ (walkSteps_good df df.length 0 _
            (initState_good df _))
        cases hr : endOfData df (finalWalk df) with
        | nil =>
          rw [hr] at h1
          exact absurd h1 (List.not_mem_nil p)
        | cons a t =>
          rw [hr] at h1
          unfold cleanPass at h1
          rcases mem_cleanAux t a p h1 with h2 | h2
          · exact hgood p (by rw [hr, h2]; exact List.mem_cons_self a t)
          · exact hgood p (by rw [hr]; exact List.mem_cons_of_mem a h2)

/-- C10: every pivot returned by `build_structure_pivots` has a valid
index into the series, its kind is HH or LL, and its price is the high
(for HH) or the low (for LL) of the bar at its own index. -/
theorem C10_pivot_prices (df : List Frame) (p : Pivot)
    (h : p ∈ build_structure_pivots df) :
    ∃ hlt : p.i < df.length,
      (p.kind = "HH" ∨ p.kind = "LL") ∧
      (p.kind = "HH" → p.price = (df.get ⟨p.i, hlt⟩).high) ∧
      (p.kind = "LL" → p.price = (df.get ⟨p.i, hlt⟩).low) := by
  obtain ⟨h1, h2, h3, h4⟩ := build_pivot_good df p h
  refine ⟨h1, h2, ?_, ?_⟩
  · intro hk
    rw [h3 hk]
    unfold highAt frameAt
    rw [List.get?_eq_get h1]
    rfl
  · intro hk
    rw [h4 hk]
    unfold lowAt frameAt
    rw [List.get?_eq_get h1]
    rfl

/-- Witness for C10 at a concrete pivot of the `exIdx` run. -/
theorem C10_witness :
    wLL ∈ build_structure_pivots exIdx ∧
    (∃ hlt : wLL.i < exIdx.length,
      (wLL.kind = "HH" ∨ wLL.kind = "LL") ∧
      (wLL.kind = "HH" → wLL.price = (exIdx.get ⟨wLL.i, hlt⟩).high) ∧
      (wLL.kind = "LL" → wLL.price = (exIdx.get ⟨wLL.i, hlt⟩).low)) :=
  ⟨by decide, C10_pivot_prices exIdx wLL (by decide)⟩

/-- C2 amended: every returned pivot's index is a valid position of the
input series (but the sequence is not guaranteed to be sorted by index:
see the counterexample). -/
theorem C2_amended_indices_valid (df : List Frame) (p : Pivot)
    (h : p ∈ build_structure_pivots df) : p.i < df.length :=
  (build_pivot_good df p h).1

/-- Witness for the amended C2. -/
theorem C2_witness :
    wHH ∈ build_structure_pivots exIdx ∧ wHH.i < exIdx.length :=
  ⟨by decide, C2_amended_indices_valid exIdx wHH (by decide)⟩

/-! ## Degenerate-input behaviour (C6) -/

theorem initial_trend_cases (row : Frame) :
    initial_trend row = "UP" ∨ initial_trend row = "DOWN" ∨
      initial_trend row = "NEUTRAL" := by
  unfold initial_trend
  cases row.sma50 with
  | none => right; right; rfl
  | some s50 =>
    cases row.sma200 with
    | none => right; right; rfl
    | some s200 =>
      dsimp only
      split_ifs
      · left; rfl
      · right; left; rfl
      · right; right; rfl

/-- C6: fewer than `lookback+5` bars make the phase classifier return
Unknown with the single reason "Not enough data", and the empty and
single-bar series make the structure pivot engine return the empty
pivot sequence. -/
theorem C6_min_data :
    (∀ (lookback : Nat) (df : List Frame), df.length < lookback + 5 →
      classify_phase_simple df lookback = ("Unknown", ["Not enough data"])) ∧
    build_structure_pivots ([] : List Frame) = [] ∧
    (∀ f : Frame, build_structure_pivots [f] = []) := by
  refine ⟨?_, rfl, ?_⟩
  · intro lb df h
    unfold classify_phase_simple
    rw [if_pos h]
  · intro f
    rcases initial_trend_cases f with h | h | h
    · simp [build_structure_pivots, bootstrapTrend, h, finalWalk, walkSteps,
        stepAt, initState, endOfData, cleanPass, finalPass]
    · simp [build_structure_pivots, bootstrapTrend, h, finalWalk, walkSteps,
        stepAt, initState, endOfData, cleanPass, finalPass]
    · simp [build_structure_pivots, bootstrapTrend, h]

/-- Witness for C6 at the empty series with the default lookback. -/
theorem C6_witness :
    ([] : List Frame).length < 20 + 5 ∧
    classify_phase_simple ([] : List Frame) 20 =
      ("Unknown", ["Not enough data"]) :=
  ⟨by decide, C6_min_data.1 20 [] (by decide)⟩

/-! ## The phase classifier on a strictly rising series (C5) -/

theorem countDown_chain :
    ∀ l : List ℚ, l.Chain' (· < ·) → countDown l = 0 := by
  intro l
  induction l with
  | nil => intro _; rfl
  | cons a t ih =>
    intro h
    cases t with
    | nil => rfl
    | cons b t2 =>
      rw [List.chain'_cons] at h
      unfold countDown
      rw [if_neg (lt_asymm h.1)]
      rw [ih h.2]

theorem countUp_chain :
    ∀ l : List ℚ, l.Chain' (· < ·) → countUp l = l.length - 1 := by
  intro l
  induction l with
  | nil => intro _; rfl
  | cons a t ih =>
    intro h
    cases t with
    | nil => rfl
    | cons b t2 =>
      rw [List.chain'_cons] at h
      unfold countUp
      rw [if_pos h.1, ih h.2]
      simp [List.length_cons]
      omega

theorem slope_num_pos :
    ∀ ys : List ℚ, ys.length = 20 → ys.Chain' (· < ·) →
      0 < 20 * iwSumFrom 0 ys - 190 * ys.sum := by
  intro ys hlen hch
  rcases ys with _ | ⟨y0, ys⟩
  · simp at hlen
  rcases ys with _ | ⟨y1, ys⟩
  · simp at hlen
  rcases ys with _ | ⟨y2, ys⟩
  · simp at hlen
  rcases ys with _ | ⟨y3, ys⟩
  · simp at hlen
  rcases ys with _ | ⟨y4, ys⟩
  · simp at hlen
  rcases ys with _ | ⟨y5, ys⟩
  · simp at hlen
  rcases ys with _ | ⟨y6, ys⟩
  · simp at hlen
  rcases ys with _ | ⟨y7, ys⟩
  · simp at hlen
  rcases ys with _ | ⟨y8, ys⟩
  · simp at hlen
  rcases ys with _ | ⟨y9, ys⟩
  · simp at hlen
  rcases ys with _ | ⟨y10, ys⟩
  · simp at hlen
  rcases ys with _ | ⟨y11, ys⟩
  · simp at hlen
  rcases ys with _ | ⟨y12, ys⟩
  · simp at hlen
  rcases ys with _ | ⟨y13, ys⟩
  · simp at hlen
  rcases ys with _ | ⟨y14, ys⟩
  · simp at hlen
  rcases ys with _ | ⟨y15, ys⟩
  · simp at hlen
  rcases ys with _ | ⟨y16, ys⟩
  · simp at hlen
  rcases ys with _ | ⟨y17, ys⟩
  · simp at hlen
  rcases ys with _ | ⟨y18, ys⟩
  · simp at hlen
  rcases ys with _ | ⟨y19, ys⟩
  · simp at hlen
  have hnil : ys = [] := by
    have h0 : ys.length = 0 := by
      simp only [List.length_cons] at hlen
      omega
    exact List.length_eq_zero.mp h0
  subst hnil
  simp only [List.chain'_cons, List.chain'_singleton, and_true] at hch
  obtain ⟨g1, g2, g3, g4, g5, g6, g7, g8, g9, g10,
    g11, g12, g13, g14, g15, g16, g17, g18, g19⟩ := hch
  simp only [iwSumFrom, List.sum_cons, List.sum_nil]
  linarith

/-- C5: on any series of at least 25 bars whose closes, highs and lows
are all strictly increasing and whose last close is strictly above its
ema20, `classify_phase_simple` with the default lookback 20 returns the
phase Advancing. -/
theorem C5_advancing (df : List Frame) (h25 : 25 ≤ df.length)
    (hc : (df.map Frame.close).Chain' (· < ·))
    (hhi : (df.map Frame.high).Chain' (· < ·))
    (hlo : (df.map Frame.low).Chain' (· < ·))
    (hema : ((df.getLast?).getD dummyFrame).close >
      ((df.getLast?).getD dummyFrame).ema20) :
    (classify_phase_simple df 20).1 = "Advancing" := by
  have hw : ilocLast 20 df = df.drop (df.length - 20) := by
    unfold ilocLast
    rw [if_neg (by decide)]
  have hwlen : (ilocLast 20 df).length = 20 := by
    rw [hw, List.length_drop]
    omega
  have hmapc : (ilocLast 20 df).map Frame.close =
      (df.map Frame.close).drop (df.length - 20) := by
    rw [hw, List.map_drop]
  have hmaph : (ilocLast 20 df).map Frame.high =
      (df.map Frame.high).drop (df.length - 20) := by
    rw [hw, List.map_drop]
  have hmapl : (ilocLast 20 df).map Frame.low =
      (df.map Frame.low).drop (df.length - 20) := by
    rw [hw, List.map_drop]
  have hcw : ((ilocLast 20 df).map Frame.close).Chain' (· < ·) := by
    rw [hmapc]
    exact hc.drop _
  have hhw : ((ilocLast 20 df).map Frame.high).Chain' (· < ·) := by
    rw [hmaph]
    exact hhi.drop _
  have hlw : ((ilocLast 20 df).map Frame.low).Chain' (· < ·) := by
    rw [hmapl]
    exact hlo.drop _
  have hylen : ((ilocLast 20 df).map Frame.close).length = 20 := by
    rw [List.length_map, hwlen]
  have hhlen : ((ilocLast 20 df).map Frame.high).length = 20 := by
    rw [List.length_map, hwlen]
  have hllen : ((ilocLast 20 df).map Frame.low).length = 20 := by
    rw [List.length_map, hwlen]
  have hnum := slope_num_pos _ hylen hcw
  have hiS : iSum 20 = 190 := by decide
  have hiSq : iSqSum 20 = 2470 := by decide
  have hslope : 0 < polyfitSlope ((ilocLast 20 df).map Frame.close) := by
    show 0 < (((((ilocLast 20 df).map Frame.close).length : ℕ) : ℚ) *
        iwSumFrom 0 ((ilocLast 20 df).map Frame.close) -
        iSum ((ilocLast 20 df).map Frame.close).length *
          ((ilocLast 20 df).map Frame.close).sum) /
      (((((ilocLast 20 df).map Frame.close).length : ℕ) : ℚ) *
        iSqSum ((ilocLast 20 df).map Frame.close).length -
        iSum ((ilocLast 20 df).map Frame.close).length ^ 2)
    rw [hylen, hiS, hiSq]
    apply div_pos
    · push_cast
      linarith
    · push_cast
      norm_num
  have hcu : countUp ((ilocLast 20 df).map Frame.high) = 19 := by
    rw [countUp_chain _ hhw, hhlen]
  have hcu2 : countUp ((ilocLast 20 df).map Frame.low) = 19 := by
    rw [countUp_chain _ hlw, hllen]
  have hcd : countDown ((ilocLast 20 df).map Frame.high) = 0 :=
    countDown_chain _ hhw
  have hcd2 : countDown ((ilocLast 20 df).map Frame.low) = 0 :=
    countDown_chain _ hlw
  unfold classify_phase_simple
  rw [if_neg (by omega)]
  dsimp only
  rw [if_pos ⟨hslope, by rw [hcu, hcu2, hcd, hcd2]; decide, hema⟩]

/-- Witness for C5 at a concrete 25-bar strictly rising series. -/
theorem C5_witness :
    25 ≤ advFrames.length ∧
    (advFrames.map Frame.close).Chain' (· < ·) ∧
    (advFrames.map Frame.high).Chain' (· < ·) ∧
    (advFrames.map Frame.low).Chain' (· < ·) ∧
    ((advFrames.getLast?).getD dummyFrame).close >
      ((advFrames.getLast?).getD dummyFrame).ema20 ∧
    (classify_phase_simple advFrames 20).1 = "Advancing" :=
  ⟨by decide,
   by simp +decide [advFrames, mkFrame, List.chain'_cons],
   by simp +decide [advFrames, mkFrame, List.chain'_cons],
   by simp +decide [advFrames, mkFrame, List.chain'_cons],
   by decide,
   C5_advancing advFrames (by decide)
     (by simp +decide [advFrames, mkFrame, List.chain'_cons])
     (by simp +decide [advFrames, mkFrame, List.chain'_cons])
     (by simp +decide [advFrames, mkFrame, List.chain'_cons])
     (by decide)⟩

/-! ## Candle classifier refinement (C7) -/

/-- C7: for a bar with a predecessor, the classifier agrees with the
spec-side first-match description `candleSpec`; the very first bar
classifies as N/A; and equal highs and lows classify as InsideBar. -/
theorem C7_candle_spec :
    (∀ (df : List Frame) (i : Nat), 0 < i →
      candle_type df i = candleSpec (frameAt df (i - 1)) (frameAt df i)) ∧
    (∀ df : List Frame, candle_type df 0 = "N/A") ∧
    (∀ (df : List Frame) (i : Nat), 0 < i →
      (frameAt df i).high = (frameAt df (i - 1)).high →
      (frameAt df i).low = (frameAt df (i - 1)).low →
      candle_type df i = "InsideBar") := by
  refine ⟨?_, ?_, ?_⟩
  · intro df i hi
    unfold candle_type candleSpec
    rw [if_neg (by omega)]
    dsimp only
    by_cases h1 : (frameAt df i).high ≤ (frameAt df (i - 1)).high ∧
        (frameAt df i).low ≥ (frameAt df (i - 1)).low
    · rw [if_pos h1, if_pos h1]
    · rw [if_neg h1, if_neg h1]
      by_cases h2 : (frameAt df i).high ≥ (frameAt df (i - 1)).high ∧
          (frameAt df i).low ≤ (frameAt df (i - 1)).low
      · rw [if_pos h2, if_pos h2]
      · rw [if_neg h2, if_neg h2]
        cases hatr : (frameAt df i).atr14 with
        | none => rfl
        | some a =>
          dsimp only
          by_cases h3 : a > 0
          · rw [if_pos h3]
            by_cases h4 : (frameAt df i).high - (frameAt df i).low ≥ 3/2 * a
            · rw [decide_eq_true h4, if_pos rfl, if_pos ⟨h3, h4⟩]
            · rw [decide_eq_false h4, if_neg (by simp), if_neg ?_]
              rintro ⟨-, hc⟩
              exact h4 hc
          · rw [if_neg h3, if_neg (by simp), if_neg ?_]
            rintro ⟨hc, -⟩
            exact h3 hc
  · intro df
    rfl
  · intro df i hi h4 h5
    unfold candle_type
    rw [if_neg (by omega)]
    dsimp only
    rw [if_pos ⟨le_of_eq h4, ge_of_eq h5⟩]

/-- Witness for C7 at the spec's worked example (previous bar
high 11 / low 7, current bar high 10 / low 8). -/
theorem C7_witness :
    0 < 1 ∧
    candle_type c7df 1 = candleSpec (frameAt c7df 0) (frameAt c7df 1) ∧
    candle_type c7df 1 = "InsideBar" :=
  ⟨by decide, C7_candle_spec.1 c7df 1 (by decide), by decide⟩

/-! ## Range type (C8) -/

/-- C8: `range_type` returns Unknown when the latest atr14 is
unavailable or zero; otherwise the returned width is the trailing-window
max high minus min low, and the type is Tight exactly when the width is
at most 1.2 × atr14 (boundary inclusive toward Tight) and Wide exactly
when it is larger. -/
theorem C8_range_type (df : List Frame) (rt : String) (info : RInfo)
    (h : range_type df 15 = some (rt, info)) :
    (((df.getLast?).getD dummyFrame).atr14 = none → rt = "Unknown") ∧
    (((df.getLast?).getD dummyFrame).atr14 = some 0 → rt = "Unknown") ∧
    (∀ a : ℚ, ((df.getLast?).getD dummyFrame).atr14 = some a → a ≠ 0 →
      info.range = maxHigh (ilocLast 15 df) - minLow (ilocLast 15 df) ∧
      (rt = "Tight" ↔ info.range ≤ 6/5 * a) ∧
      (rt = "Wide" ↔ 6/5 * a < info.range)) := by
  unfold range_type at h
  cases hgl : df.getLast? with
  | none =>
    rw [hgl] at h
    exact absurd h (by simp)
  | some lastRow =>
    rw [hgl] at h
    dsimp only at h
    simp only [Option.getD_some]
    cases hatr : lastRow.atr14 with
    | none =>
      rw [hatr] at h
      dsimp only at h
      simp only [Option.some.injEq, Prod.mk.injEq] at h
      obtain ⟨hrt, hinfo⟩ := h
      refine ⟨fun _ => hrt.symm, fun _ => hrt.symm, fun a ha _ => ?_⟩
      exact Option.noConfusion ha
    | some atr =>
      rw [hatr] at h
      dsimp only at h
      by_cases hz : atr = 0
      · rw [if_pos hz] at h
        simp only [Option.some.injEq, Prod.mk.injEq] at h
        obtain ⟨hrt, hinfo⟩ := h
        refine ⟨fun hc => ?_, fun _ => hrt.symm, fun a ha hne => ?_⟩
        · exact Option.noConfusion hc
        · rw [hz] at ha
          exact absurd (Option.some.inj ha).symm hne
      · rw [if_neg hz] at h
        simp only [Option.some.injEq, Prod.mk.injEq] at h
        obtain ⟨hrt, hinfo⟩ := h
        subst hrt
        subst hinfo
        refine ⟨fun hc => ?_, fun hc => ?_, fun a ha hne => ?_⟩
        · exact Option.noConfusion hc
        · exact absurd (Option.some.inj hc) hz
        · have haa : atr = a := Option.some.inj ha
          subst haa
          refine ⟨rfl, ?_, ?_⟩
          · by_cases hc : maxHigh (ilocLast 15 df) - minLow (ilocLast 15 df) ≤
                6/5 * atr
            · rw [if_pos hc]
              simpa using hc
            · rw [if_neg hc]
              constructor
              · intro hw
                exact absurd hw (by decide)
              · intro hw
                exact absurd hw hc
          · by_cases hc : maxHigh (ilocLast 15 df) - minLow (ilocLast 15 df) ≤
                6/5 * atr
            · rw [if_pos hc]
              constructor
              · intro hw
                exact absurd hw (by decide)
              · intro hw
                exact absurd hc (not_le.mpr hw)
            · rw [if_neg hc]
              simpa using not_le.mp hc

/-- Witness for C8 at a window whose width is exactly 1.2 × atr14. -/
theorem C8_witness :
    range_type c8df 15 = some ("Tight", ⟨6, 0, 6, some 5⟩) ∧
    (("Tight" = "Tight" ↔ (⟨6, 0, 6, some 5⟩ : RInfo).range ≤ 6/5 * 5) ∧
     ("Tight" = "Wide" ↔ 6/5 * 5 < (⟨6, 0, 6, some 5⟩ : RInfo).range)) :=
  ⟨by decide,
   ((C8_range_type c8df "Tight" ⟨6, 0, 6, some 5⟩ (by decide)).2.2 5
      (by decide) (by decide)).2⟩

/-! ## The prediction aggregator (C3, C9) -/

theorem length_add_indicators (df : List Bar) :
    (add_indicators df).length = df.length := by
  unfold add_indicators
  rw [List.length_map, List.length_range]

theorem range_type_isSome (df : List Frame) (x : Frame)
    (h : df.getLast? = some x) : ∃ y, range_type df 15 = some y := by
  unfold range_type
  rw [h]
  dsimp only
  cases x.atr14 with
  | none => exact ⟨_, rfl⟩
  | some atr =>
    dsimp only
    by_cases hz : atr = 0
    · rw [if_pos hz]
      exact ⟨_, rfl⟩
    · rw [if_neg hz]
      exact ⟨_, rfl⟩

/-- C3 counterexample: `predict_tomorrow` happily returns a
PredictionResult for a series containing a malformed bar with
`high < low`, instead of rejecting the call. -/
theorem C3_counterexample :
    malBar.high < malBar.low ∧
    (predict_tomorrow [malBar]).isSome = true := by
  constructor
  · decide
  · decide

/-- C3 amended: `predict_tomorrow` performs no validation of bar
well-formedness; it returns a PredictionResult for every non-empty
series, malformed bars included, and fails only on the empty series
(from positional indexing of the last row), with no descriptive
validation error. -/
theorem C3_amended_no_validation (df : List Bar) :
    (df = [] → predict_tomorrow df = none) ∧
    (df ≠ [] → (predict_tomorrow df).isSome = true) := by
  constructor
  · intro h
    subst h
    rfl
  · intro h
    have hne : add_indicators df ≠ [] := by
      intro hc
      have := length_add_indicators df
      rw [hc] at this
      exact h (List.length_eq_zero.mp this.symm)
    have hgl : (add_indicators df).getLast? =
        some ((add_indicators df).getLast hne) :=
      List.getLast?_eq_getLast _ hne
    obtain ⟨⟨rt, ri⟩, hy⟩ := range_type_isSome _ _ hgl
    unfold predict_tomorrow
    dsimp only
    rw [hgl]
    dsimp only
    by_cases hp : (classify_phase_simple (add_indicators df) 20).1 = "Advancing" ∨
        (classify_phase_simple (add_indicators df) 20).1 = "Declining"
    · rw [if_pos hp, hy]
      rfl
    · rw [if_neg hp, hy]
      rfl

/-- Witness for the amended C3 at the malformed one-bar series. -/
theorem C3_witness :
    ([malBar] : List Bar) ≠ [] ∧ (predict_tomorrow [malBar]).isSome = true :=
  ⟨by decide, (C3_amended_no_validation [malBar]).2 (by decide)⟩

theorem execNote_lookup (bt : String) :
    ((bt = "InsideBar" ∨ bt = "OutsideBar" ∨ bt = "LongBar") →
      ∃ s, (execNote bt).lookup "ExecutionNote" = some s) ∧
    (bt = "Normal" → (execNote bt).lookup "ExecutionNote" = none) := by
  constructor
  · intro h
    rcases h with h | h | h <;> subst h <;> exact ⟨_, rfl⟩
  · intro h
    subst h
    rfl

/-- C9: every result of `predict_tomorrow` carries a `50SMA` flag whose
value is N/A exactly when sma50 is unavailable and otherwise compares
the latest close to sma50, always carries a `DailyBarType` flag, carries
a `RangeType` flag whenever the phase is neither Advancing nor
Declining, and carries an `ExecutionNote` flag exactly for the
InsideBar/OutsideBar/LongBar bar types (none for Normal). -/
theorem C9_flags (df : List Bar) (r : PredictionResult)
    (h : predict_tomorrow df = some r) :
    r.flags.lookup "50SMA" = some
      (match ((add_indicators df).getLast?.getD dummyFrame).sma50 with
       | some s =>
         if ((add_indicators df).getLast?.getD dummyFrame).close > s then
           "Above"
         else if ((add_indicators df).getLast?.getD dummyFrame).close < s then
           "Below"
         else "At"
       | none => "N/A") ∧
    (∃ v, r.flags.lookup "DailyBarType" = some v) ∧
    (¬(r.phase = "Advancing" ∨ r.phase = "Declining") →
      ∃ v, r.flags.lookup "RangeType" = some v) ∧
    (∀ v, r.flags.lookup "DailyBarType" = some v →
      ((v = "InsideBar" ∨ v = "OutsideBar" ∨ v = "LongBar") →
        ∃ s, r.flags.lookup "ExecutionNote" = some s) ∧
      (v = "Normal" → r.flags.lookup "ExecutionNote" = none)) := by
  unfold predict_tomorrow at h
  dsimp only at h
  cases hgl : (add_indicators df).getLast? with
  | none =>
    rw [hgl] at h
    exact absurd h (by simp)
  | some lastRow =>
    rw [hgl] at h
    dsimp only at h
    simp only [Option.getD_some]
    by_cases hp : (classify_phase_simple (add_indicators df) 20).1 = "Advancing" ∨
        (classify_phase_simple (add_indicators df) 20).1 = "Declining"
    · rw [if_pos hp] at h
      obtain ⟨⟨rt, ri⟩, hy⟩ := range_type_isSome _ _ hgl
      rw [hy] at h
      dsimp only at h
      injection h with h2
      subst h2
      refine ⟨?_, ⟨_, rfl⟩, fun hc => absurd hp hc, fun v hv => ?_⟩
      · simp [List.lookup]
      · have hv2 : v = candle_type (add_indicators df)
            ((add_indicators df).length - 1) := by
          simp [List.lookup] at hv
          exact hv.symm
        subst hv2
        have he := execNote_lookup
          (candle_type (add_indicators df) ((add_indicators df).length - 1))
        constructor
        · intro h3
          obtain ⟨s2, hs2⟩ := he.1 h3
          exact ⟨s2, by simp [List.lookup, hs2]⟩
        · intro h3
          have := he.2 h3
          simp [List.lookup, this]
    · rw [if_neg hp] at h
      obtain ⟨⟨rt, ri⟩, hy⟩ := range_type_isSome _ _ hgl
      rw [hy] at h
      dsimp only at h
      injection h with h2
      subst h2
      refine ⟨?_, ⟨_, rfl⟩, fun hc => ⟨rt, rfl⟩, fun v hv => ?_⟩
      · simp [List.lookup]
      · have hv2 : v = candle_type (add_indicators df)
            ((add_indicators df).length - 1) := by
          simp [List.lookup] at hv
          exact hv.symm
        subst hv2
        have he := execNote_lookup
          (candle_type (add_indicators df) ((add_indicators df).length - 1))
        constructor
        · intro h3
          obtain ⟨s2, hs2⟩ := he.1 h3
          exact ⟨s2, by simp [List.lookup, hs2]⟩
        · intro h3
          have := he.2 h3
          simp [List.lookup, this]

/-- Witness for C9 at the one-bar series. -/
theorem C9_witness :
    (∃ r, predict_tomorrow [malBar] = some r ∧
      r.flags.lookup "50SMA" = some
        (match ((add_indicators [malBar]).getLast?.getD dummyFrame).sma50 with
         | some s =>
           if ((add_indicators [malBar]).getLast?.getD dummyFrame).close > s then
             "Above"
           else if ((add_indicators [malBar]).getLast?.getD dummyFrame).close < s
             then "Below"
           else "At"
         | none => "N/A") ∧
      (∃ v, r.flags.lookup "DailyBarType" = some v)) := by
  cases hr : predict_tomorrow [malBar] with
  | none => exact absurd hr (by decide)
  | some r =>
    have h9 := C9_flags [malBar] r hr
    exact ⟨r, rfl, h9.1, h9.2.1⟩

end Proofs

end TrendScanner
